import Mathlib

/-
  Verification development for the OmniTrade hedge-volume engine
  (src/core/volume_engine.py and src/main.py).

  Shallow embedding conventions:
  - Python floats are modelled as rationals; prices, sizes and timestamps are
    rationals.  Timestamps are seconds, calendar dates are integers (day index).
  - Python round(x, n) is modelled with Mathlib round (ties differ from the
    banker rounding of Python only at exact half ties, which no claim touches).
  - External network calls (order book fetch, order submission) are
    nondeterministic; their outcomes are passed as explicit parameters.  An
    order submission either returns an order record or raises, modelled by
    OrderResult.
  - Python truthiness of the "a or b" idiom on optional floats (0.0 is falsy)
    is modelled by pyOr.
-/

/-- Status of a hedge position.  The source lists the status strings
open, closed, partial, failed; the string partial is never assigned by any
code path, so only the three statuses that occur are modelled. -/
inductive PositionStatus
  | opened
  | closed
  | failed
  deriving DecidableEq, Repr

/-- HedgePosition dataclass from volume_engine.py. -/
structure HedgePosition where
  positionId : String
  symbol : String
  longExchange : String
  shortExchange : String
  size : ℚ
  longPrice : ℚ
  shortPrice : ℚ
  openedAt : ℚ
  closedAt : Option ℚ := none
  status : PositionStatus := .opened
  pnl : ℚ := 0
  longOrderId : Option String := none
  shortOrderId : Option String := none
  deriving DecidableEq, Repr

/-- HedgePosition.get_spread: absolute difference of the two entry prices. -/
def getSpread (p : HedgePosition) : ℚ := |p.longPrice - p.shortPrice|

/-- HedgePosition.calculate_cost: spread times size. -/
def calculateCost (p : HedgePosition) : ℚ := getSpread p * p.size

/-- HedgePosition.get_lifetime_seconds: closed_at (or now while open) minus
opened_at. -/
def lifetimeSeconds (p : HedgePosition) (now : ℚ) : ℚ :=
  (p.closedAt.getD now) - p.openedAt

/-- Order record returned by an exchange create_order / fetch_order call,
with the fields the engine reads. -/
structure Order where
  id : Option String := none
  status : Option String := none
  filled : Option ℚ := none
  average : Option ℚ := none
  price : Option ℚ := none
  deriving DecidableEq, Repr

/-- Outcome of one leg submission inside asyncio.gather with
return_exceptions=True: either the order dict or an exception object. -/
inductive OrderResult
  | ok (o : Order)
  | exn
  deriving DecidableEq, Repr

/-- Python idiom "a or b" on optional prices: a is used unless it is None or
0.0 (both falsy), in which case b is used. -/
def pyOr (a b : Option ℚ) : Option ℚ :=
  match a with
  | some x => if x = 0 then b else some x
  | none => b

/-- Python round(x, 6). -/
def round6 (q : ℚ) : ℚ := (round (q * 1000000) : ℤ) / 1000000

/-- Python round(x, 4). -/
def round4 (q : ℚ) : ℚ := (round (q * 10000) : ℤ) / 10000

/-- Python round(x, 1). -/
def round1 (q : ℚ) : ℚ := (round (q * 10) : ℤ) / 10

/-- Order book snapshot: ordered (price, quantity) levels, bids descending and
asks ascending; the head is the top of book. -/
structure Orderbook where
  bids : List (ℚ × ℚ)
  asks : List (ℚ × ℚ)
  deriving DecidableEq, Repr

/-- Best ask price: asks[0][0]. -/
def bestAsk (ob : Orderbook) : ℚ := (ob.asks.headD (0, 0)).1

/-- Best bid price: bids[0][0]. -/
def bestBid (ob : Orderbook) : ℚ := (ob.bids.headD (0, 0)).1

/-- Result dictionary of _check_spread_and_determine_direction.  Keys absent
from the failure dictionaries are modelled with default values. -/
structure SpreadResult where
  acceptable : Bool := false
  longExchange : String := ""
  shortExchange : String := ""
  spreadPct : ℚ := 999
  longPrice : ℚ := 0
  shortPrice : ℚ := 0
  spread : ℚ := 0
  costAdvantage : ℚ := 0
  deriving DecidableEq, Repr

/-- VolumeEngine._check_spread_and_determine_direction, starting from the two
fetched order books (the symbol mapping and network fetch stages are outside
this function; a mapping or fetch failure returns acceptable := false before
this logic runs).  Scenario 1 buys at the first venue ask and sells at the
second venue bid; scenario 2 is the reverse; the cheaper scenario is chosen
and its buyer becomes the long exchange. -/
def checkSpreadAndDetermineDirection (ex1 ex2 : String) (ob1 ob2 : Orderbook)
    (maxSpreadTolerance : ℚ) : SpreadResult :=
  if ob1.asks.isEmpty ∨ ob1.bids.isEmpty ∨ ob2.asks.isEmpty ∨ ob2.bids.isEmpty then
    { acceptable := false, spreadPct := 999 }
  else
    let ex1BuyPrice := bestAsk ob1
    let ex1SellPrice := bestBid ob1
    let ex2BuyPrice := bestAsk ob2
    let ex2SellPrice := bestBid ob2
    if ex1BuyPrice + ex2SellPrice = 0 ∨ ex2BuyPrice + ex1SellPrice = 0 then
      -- a zero midpoint raises ZeroDivisionError in Python, caught by the
      -- except branch which returns the failure dictionary
      { acceptable := false, spreadPct := 999 }
    else
    let cost1 := ex1BuyPrice - ex2SellPrice
    let spread1Pct := |cost1| / ((ex1BuyPrice + ex2SellPrice) / 2) * 100
    let cost2 := ex2BuyPrice - ex1SellPrice
    let spread2Pct := |cost2| / ((ex2BuyPrice + ex1SellPrice) / 2) * 100
    if cost1 ≤ cost2 then
      { acceptable := decide (spread1Pct ≤ maxSpreadTolerance),
        longExchange := ex1, shortExchange := ex2,
        spreadPct := spread1Pct,
        longPrice := ex1BuyPrice, shortPrice := ex2SellPrice,
        spread := cost1, costAdvantage := min cost1 cost2 }
    else
      { acceptable := decide (spread2Pct ≤ maxSpreadTolerance),
        longExchange := ex2, shortExchange := ex1,
        spreadPct := spread2Pct,
        longPrice := ex2BuyPrice, shortPrice := ex1SellPrice,
        spread := cost2, costAdvantage := min cost1 cost2 }

/-- Size distribution kind from the position configuration. -/
inductive SizeDistribution
  | lognormal
  | loguniform
  deriving DecidableEq, Repr

/-- VolumeEngine._generate_random_size.  The transcendental random draw is
abstracted as the parameter sample: for lognormal it is the value returned by
random.lognormvariate (an arbitrary positive real, clipped below by the code);
for loguniform it is exp taken at the uniform draw in log space, which always
lies in the closed interval from minSize to maxSize - that fact is supplied as
a hypothesis where needed.  noise is the uniform jitter draw from
random.uniform(0.95, 1.05).  Note the jitter multiplies the size after the
clipping step. -/
def generateRandomSize (minSize maxSize : ℚ) (dist : SizeDistribution)
    (sample noise : ℚ) : ℚ :=
  let size := match dist with
    | .lognormal => max minSize (min maxSize sample)
    | .loguniform => sample
  round6 (size * noise)

/-- Per-position decision of VolumeEngine._check_and_close_positions: close
unconditionally at or beyond the maximum lifetime; between minimum and maximum
lifetime close when the uniform draw from random.random() falls below
timeFactor * 0.3; below the minimum lifetime never close. -/
def shouldClosePosition (minLifetime maxLifetime lifetime draw : ℚ) : Bool :=
  if lifetime ≥ maxLifetime then true
  else if lifetime ≥ minLifetime then
    decide (draw < (lifetime - minLifetime) / (maxLifetime - minLifetime) * (3/10))
  else false

/-- One scan of the position manager loop: the queue of positions selected for
closing, each position consuming its own uniform draw. -/
def positionsToClose (positions : List HedgePosition) (now minLifetime maxLifetime : ℚ)
    (draw : HedgePosition → ℚ) : List HedgePosition :=
  positions.filter
    (fun p => shouldClosePosition minLifetime maxLifetime (lifetimeSeconds p now) (draw p))

/-- The limits entry of a ccxt market structure: minimum cost (notional) and
minimum amount, either possibly absent. -/
structure MarketLimits where
  minCost : Option ℚ := none
  minAmount : Option ℚ := none
  deriving DecidableEq, Repr

/-- One leg of VolumeEngine._validate_and_adjust_size: raise the size to the
minimum-notional requirement with a 10 percent buffer when a minimum cost and
a price are available (Python truthiness: a 0 value is skipped like None),
raise it to 1.1 times the minimum amount when one is available, then snap the
result to the venue quantity precision.  The ccxt amount_to_precision call is
external code, passed in as the function snap. -/
def adjustLegSize (size : ℚ) (lim : MarketLimits) (price : Option ℚ)
    (snap : ℚ → ℚ) : ℚ :=
  let s1 := match lim.minCost, price with
    | some c, some p => if c ≠ 0 ∧ p ≠ 0 then max size (c / p * (11/10)) else size
    | _, _ => size
  let s2 := match lim.minAmount with
    | some a => if a ≠ 0 then max s1 (a * (11/10)) else s1
    | none => s1
  snap s2

/-- VolumeEngine._validate_and_adjust_size: the long-leg adjustment runs
first, then the short-leg adjustment runs on its output (both legs present
and raising no exception while reading their market limits). -/
def validateAndAdjustSize (size : ℚ)
    (limLong : MarketLimits) (priceLong : Option ℚ) (snapLong : ℚ → ℚ)
    (limShort : MarketLimits) (priceShort : Option ℚ) (snapShort : ℚ → ℚ) : ℚ :=
  adjustLegSize (adjustLegSize size limLong priceLong snapLong)
    limShort priceShort snapShort

/-- Abstraction of ccxt amount_to_precision: the snapped value never exceeds
the input and lowers it by less than one precision step. -/
def SnapApprox (snap : ℚ → ℚ) (step : ℚ) : Prop :=
  ∀ x : ℚ, x - step ≤ snap x ∧ snap x ≤ x

/-- Side of an order. -/
inductive Side
  | buy
  | sell
  deriving DecidableEq, Repr

/-- An emergency compensating market order submitted by
VolumeEngine._emergency_close_order: venue, side and amount. -/
structure CompOrder where
  exchange : String
  side : Side
  size : ℚ
  deriving DecidableEq, Repr

/-- Inputs of the submission stage of VolumeEngine._execute_hedge_open that
are fixed before the two leg orders are submitted: identifiers, the adjusted
size, and the pre-trade reference prices (top-of-book ask for the long leg and
bid for the short leg, absent when that side of the book was empty). -/
structure OpenContext where
  positionId : String
  symbol : String
  longExchange : String
  shortExchange : String
  size : ℚ
  longRef : Option ℚ := none
  shortRef : Option ℚ := none
  openedAt : ℚ := 0
  deriving DecidableEq, Repr

/-- Submission and confirmation stage of VolumeEngine._execute_hedge_open:
given the outcomes of the two concurrent leg submissions, either build the
HedgePosition (both legs succeeded and both fill prices are recoverable via
average, then price, then the reference price) or return no position together
with the list of emergency compensating orders submitted.  The later
fill-quantity logging and the asynchronous re-query never change this
result. -/
def executeHedgeOpenOrders (ctx : OpenContext) (longRes shortRes : OrderResult) :
    Option HedgePosition × List CompOrder :=
  match longRes, shortRes with
  | .exn, .exn => (none, [])
  | .exn, .ok _ => (none, [⟨ctx.shortExchange, .buy, ctx.size⟩])
  | .ok _, .exn => (none, [⟨ctx.longExchange, .sell, ctx.size⟩])
  | .ok lo, .ok so =>
    match pyOr (pyOr lo.average lo.price) ctx.longRef,
          pyOr (pyOr so.average so.price) ctx.shortRef with
    | some priceLong, some priceShort =>
      (some { positionId := ctx.positionId, symbol := ctx.symbol,
              longExchange := ctx.longExchange, shortExchange := ctx.shortExchange,
              size := ctx.size, longPrice := priceLong, shortPrice := priceShort,
              openedAt := ctx.openedAt, closedAt := none, status := .opened,
              pnl := 0, longOrderId := lo.id, shortOrderId := so.id }, [])
    | _, _ =>
      (none, [⟨ctx.longExchange, .sell, ctx.size⟩, ⟨ctx.shortExchange, .buy, ctx.size⟩])

/-- Environment of one VolumeEngine._execute_hedge_close call: which external
outcome the call runs into.  mappingFail: a leg symbol is unmapped.
priceFetchFail: fetching the exit order books raises.  unexpectedError: an
exception raised before the close is committed (caught by the outer handler).
orders: both close submissions return (each either an order record, after any
asynchronous re-query, or an exception), with the exit order book prices that
were fetched (bid for the long leg, ask for the short leg, absent when that
book side was empty). -/
inductive CloseEnv
  | mappingFail
  | priceFetchFail
  | unexpectedError
  | orders (longRef shortRef : Option ℚ) (closeLong closeShort : OrderResult)
  deriving DecidableEq, Repr

/-- Close price of one leg: the order average or price when truthy, otherwise
the exit order book reference (the Python None check, after an or chain using
truthiness). -/
def resolveClosePrice (o : Order) (refPrice : Option ℚ) : Option ℚ :=
  match pyOr o.average o.price with
  | some p => some p
  | none => refPrice

/-- Realized PnL computed by VolumeEngine._execute_hedge_close: when both
close orders completed and both prices resolve, long PnL plus short PnL; when
a close order raised, or a price stays unresolved, 0. -/
def closePnl (pos : HedgePosition) (longRef shortRef : Option ℚ)
    (closeLong closeShort : OrderResult) : ℚ :=
  match closeLong, closeShort with
  | .ok ol, .ok os =>
    match resolveClosePrice ol longRef, resolveClosePrice os shortRef with
    | some pl, some ps =>
      (pl - pos.longPrice) * pos.size + (pos.shortPrice - ps) * pos.size
    | _, _ => 0
  | _, _ => 0

/-- In-place mutation of a list element: replace the first occurrence of
target by the updated record (Python mutates the object aliased by the
list). -/
def updateFirst (l : List HedgePosition) (target updated : HedgePosition) :
    List HedgePosition :=
  match l with
  | [] => []
  | x :: xs => if x = target then updated :: xs else x :: updateFirst xs target updated

/-- The mutable state of a VolumeEngine instance that the claims touch,
with the configuration defaults of the source. -/
structure EngineState where
  activePositions : List HedgePosition := []
  positionHistory : List HedgePosition := []
  dailyVolume : ℚ := 0
  lastResetDate : ℤ := 0
  dailyMaxVolume : ℚ := 1000
  maxConcurrentPositions : ℕ := 10
  minPositionLifetime : ℚ := 300
  maxPositionLifetime : ℚ := 7200
  maxSpreadTolerance : ℚ := 1/2
  deriving DecidableEq, Repr

/-- VolumeEngine._execute_hedge_close on a position of the active list.  On a
mapping failure, a price-fetch failure or an unexpected exception the position
object is marked failed and the method returns: the position stays in the
active list.  Once both submissions return, the PnL is recorded, the position
is marked closed, removed from the active list and appended to the history
(Python list.remove removes the first element equal to the mutated
object). -/
def executeHedgeClose (s : EngineState) (pos : HedgePosition) (env : CloseEnv)
    (now : ℚ) : EngineState :=
  match env with
  | .mappingFail | .priceFetchFail | .unexpectedError =>
    { s with activePositions :=
        updateFirst s.activePositions pos { pos with status := .failed } }
  | .orders longRef shortRef closeLong closeShort =>
    let pos2 := { pos with
      status := .closed
      closedAt := some now
      pnl := closePnl pos longRef shortRef closeLong closeShort }
    { s with
      activePositions := (updateFirst s.activePositions pos pos2).erase pos2,
      positionHistory := s.positionHistory ++ [pos2] }

/-- Ledger update of the farming loop after _execute_hedge_open returns: a
returned position is appended to the active list and the requested size (the
sizer output, not the adjusted position size) is added to the daily volume; a
None return changes nothing. -/
def recordOpenResult (s : EngineState) (requestedSize : ℚ)
    (result : Option HedgePosition) : EngineState :=
  match result with
  | some pos =>
    { s with activePositions := s.activePositions ++ [pos],
             dailyVolume := s.dailyVolume + requestedSize }
  | none => s

/-- VolumeEngine._check_daily_reset: zero the daily volume and move the reset
date forward when the local calendar date advanced. -/
def checkDailyReset (s : EngineState) (today : ℤ) : EngineState :=
  if today > s.lastResetDate then
    { s with dailyVolume := 0, lastResetDate := today }
  else s

/-- The daily-cap gate at the top of a farming-loop iteration: reset check
first, then the comparison of the daily volume against the cap (true means the
iteration sleeps instead of opening). -/
def farmingDailyGate (s : EngineState) (today : ℤ) : EngineState × Bool :=
  let s2 := checkDailyReset s today
  (s2, decide (s2.dailyVolume ≥ s2.dailyMaxVolume))

/-- One farming-loop iteration that reaches the open attempt: daily reset
check, daily-cap gate, concurrent-position gate, then the open and the ledger
update.  Iterations rejected by the spread check or the pair selection leave
the state as after the reset check, like the gated branches. -/
def farmingIteration (s : EngineState) (today : ℤ) (requestedSize : ℚ)
    (ctx : OpenContext) (longRes shortRes : OrderResult) : EngineState :=
  let s1 := checkDailyReset s today
  if s1.dailyVolume ≥ s1.dailyMaxVolume then s1
  else if s1.activePositions.length ≥ s1.maxConcurrentPositions then s1
  else recordOpenResult s1 requestedSize (executeHedgeOpenOrders ctx longRes shortRes).1

/-- The dictionary returned by VolumeEngine.get_statistics. -/
structure Statistics where
  activePositions : ℕ
  totalPositionsOpened : ℕ
  totalVolume : ℚ
  totalSpreadCost : ℚ
  totalPnl : ℚ
  avgSpreadCost : ℚ
  avgLifetimeSeconds : ℚ
  dailyVolume : ℚ
  dailyVolumeRemaining : ℚ
  deriving DecidableEq, Repr

/-- VolumeEngine.get_statistics.  It reads the daily counters directly,
without calling _check_daily_reset.  now only enters through the lifetime of a
history entry with no closed_at value, which no code path produces. -/
def getStatistics (s : EngineState) (now : ℚ) : Statistics :=
  let allPositions := s.activePositions ++ s.positionHistory
  let closedPositions := s.positionHistory
  let totalPositions := allPositions.length
  let totalVolume := (allPositions.map (fun p => p.size)).sum
  let totalCost := (allPositions.map calculateCost).sum
  let totalPnl := (closedPositions.map (fun p => p.pnl)).sum
  let avgLifetime :=
    if 0 < closedPositions.length then
      ((closedPositions.map (fun p => lifetimeSeconds p now)).sum : ℚ) /
        closedPositions.length
    else 0
  { activePositions := s.activePositions.length,
    totalPositionsOpened := totalPositions,
    totalVolume := round4 totalVolume,
    totalSpreadCost := round4 totalCost,
    totalPnl := round4 totalPnl,
    avgSpreadCost := if 0 < totalPositions then round4 (totalCost / totalPositions) else 0,
    avgLifetimeSeconds := round1 avgLifetime,
    dailyVolume := round4 s.dailyVolume,
    dailyVolumeRemaining := round4 (s.dailyMaxVolume - s.dailyVolume) }

/-- One observable transition of the engine state: a farming-loop open attempt
(with any submission outcomes), a close driven by the manager loop or by
close_all_positions on a position of the active list, or a daily reset
check. -/
inductive EngineStep : EngineState → EngineState → Prop
  | openAttempt (s : EngineState) (ctx : OpenContext) (longRes shortRes : OrderResult)
      (requestedSize : ℚ) :
      EngineStep s
        (recordOpenResult s requestedSize (executeHedgeOpenOrders ctx longRes shortRes).1)
  | close (s : EngineState) (pos : HedgePosition) (env : CloseEnv) (now : ℚ)
      (hmem : pos ∈ s.activePositions) :
      EngineStep s (executeHedgeClose s pos env now)
  | dailyReset (s : EngineState) (today : ℤ) :
      EngineStep s (checkDailyReset s today)

/-- States reachable from a freshly initialised engine (empty active list,
empty history) by engine operations. -/
inductive Reachable : EngineState → Prop
  | init (s : EngineState) (hactive : s.activePositions = [])
      (hhist : s.positionHistory = []) : Reachable s
  | step (s t : EngineState) (hs : Reachable s) (hstep : EngineStep s t) : Reachable t

/-- Result of TradeBot._acquire_lock in main.py. -/
inductive AcquireResult
  | acquired
  | alreadyRunning
  deriving DecidableEq, Repr

/-- Python str.strip: drop whitespace from both ends. -/
def pyStrip (s : String) : String :=
  ⟨((s.data.dropWhile Char.isWhitespace).reverse.dropWhile Char.isWhitespace).reverse⟩

/-- Python int applied to an already stripped string of a pid file: parses a
nonempty all-digit string, raises (None) otherwise.  Signs do not occur in pid
files, which only ever hold str(os.getpid()). -/
def parseNat? (s : String) : Option ℕ :=
  if s.data ≠ [] ∧ s.data.all Char.isDigit then
    some (s.data.foldl (fun n c => n * 10 + (c.toNat - 48)) 0)
  else none

/-- TradeBot._acquire_lock from main.py for one mode, single caller: the lock
file content (when the file exists) and the liveness of pids are the world
state.  An existing file recording a live pid rejects the caller and is left
untouched.  A recorded dead pid has its stale file removed; an empty or
unparsable content falls through to the file-creation path (the ValueError of
int lands in the bare except which only passes).  The creation path truncates
or creates the file, takes the flock (uncontended here, with no second
concurrent caller) and writes the caller pid. -/
def acquireLock (lockFile : Option String) (alive : ℕ → Bool) (myPid : ℕ) :
    AcquireResult × Option String :=
  match lockFile with
  | some content =>
    let existingPid := pyStrip content
    if existingPid = "" then
      (.acquired, some (toString myPid))
    else
      match parseNat? existingPid with
      | some pid =>
        if alive pid then (.alreadyRunning, some content)
        else (.acquired, some (toString myPid))
      | none => (.acquired, some (toString myPid))
  | none => (.acquired, some (toString myPid))

/-- Position used by the close witness. -/
def witClosePos : HedgePosition :=
  { positionId := "w", symbol := "BTC/USD", longExchange := "exA",
    shortExchange := "exB", size := 2, longPrice := 100, shortPrice := 101,
    openedAt := 0 }

/-- Order books of the C3 witness (the spec example): venue A ask 100, bid 99;
venue B ask 98, bid 97. -/
def witObA : Orderbook := { bids := [(99, 1)], asks := [(100, 1)] }

/-- Second order book of the C3 witness. -/
def witObB : Orderbook := { bids := [(97, 1)], asks := [(98, 1)] }

/-- Result of the direction selector on the C3 witness books. -/
def witSpreadResult : SpreadResult :=
  checkSpreadAndDetermineDirection "venueA" "venueB" witObA witObB 5

/-- Long-leg order of the C1 counterexample run. -/
def cexLongOrder : Order := { id := some "L1", average := some 100 }

/-- Short-leg order of the C1 counterexample run. -/
def cexShortOrder : Order := { id := some "S1", average := some 101 }

/-- Open context of the C1 counterexample run. -/
def cexCtx : OpenContext :=
  { positionId := "BTCUSD_exA_exB_0", symbol := "BTC/USD", longExchange := "exA",
    shortExchange := "exB", size := 1, longRef := some 100, shortRef := some 101,
    openedAt := 0 }

/-- Position created by the C1 counterexample open. -/
def cexOpenPos : HedgePosition :=
  { positionId := "BTCUSD_exA_exB_0", symbol := "BTC/USD", longExchange := "exA",
    shortExchange := "exB", size := 1, longPrice := 100, shortPrice := 101,
    openedAt := 0, closedAt := none, status := .opened, pnl := 0,
    longOrderId := some "L1", shortOrderId := some "S1" }

/-- Engine state after the C1 counterexample open. -/
def cexState1 : EngineState :=
  recordOpenResult {} 1
    (executeHedgeOpenOrders cexCtx (.ok cexLongOrder) (.ok cexShortOrder)).1

/-- Engine state after the C1 counterexample failing close. -/
def cexState2 : EngineState := executeHedgeClose cexState1 cexOpenPos .mappingFail 500

/-- Engine state of the C9 counterexample: five units of volume accumulated,
last reset on day 0. -/
def statState : EngineState := { dailyVolume := 5, lastResetDate := 0 }

/-- Engine state of the C10 counterexample: the daily volume exceeds the cap
by a hundred-thousandth. -/
def overState : EngineState :=
  { dailyVolume := 1000 + 1/100000, dailyMaxVolume := 1000 }

/-- Engine state of the C10 amended witness: volume one unit above the cap. -/
def overStateBig : EngineState := { dailyVolume := 1001, dailyMaxVolume := 1000 }

/-! Helper lemmas. -/

/-- Rounding to six decimal places is monotone. -/
theorem round6_mono {a b : ℚ} (h : a ≤ b) : round6 a ≤ round6 b := by
  unfold round6
  have hf : round (a * 1000000) ≤ round (b * 1000000) := by
    rw [round_eq, round_eq]
    exact Int.floor_le_floor (by linarith)
  have : ((round (a * 1000000) : ℤ) : ℚ) ≤ ((round (b * 1000000) : ℤ) : ℚ) := by
    exact_mod_cast hf
  linarith

/-- Any element of the list after an in-place update is an old element or the
updated record. -/
theorem mem_updateFirst {l : List HedgePosition} {t n q : HedgePosition}
    (h : q ∈ updateFirst l t n) : q ∈ l ∨ q = n := by
  induction l with
  | nil => simp [updateFirst] at h
  | cons x xs ih =>
    by_cases hx : x = t
    · simp only [updateFirst, if_pos hx] at h
      rcases List.mem_cons.mp h with h1 | h1
      · exact Or.inr h1
      · exact Or.inl (List.mem_cons_of_mem _ h1)
    · simp only [updateFirst, if_neg hx] at h
      rcases List.mem_cons.mp h with h1 | h1
      · exact Or.inl (h1 ▸ List.mem_cons_self x xs)
      · rcases ih h1 with h2 | h2
        · exact Or.inl (List.mem_cons_of_mem _ h2)
        · exact Or.inr h2

/-- When the target occurs in the list, the updated record occurs in the
updated list. -/
theorem updateFirst_mem_updated {l : List HedgePosition} {t : HedgePosition}
    (n : HedgePosition) (h : t ∈ l) : n ∈ updateFirst l t n := by
  induction l with
  | nil => simp at h
  | cons x xs ih =>
    by_cases hx : x = t
    · simp [updateFirst, if_pos hx]
    · have hxs : t ∈ xs := by
        rcases List.mem_cons.mp h with h1 | h1
        · exact absurd h1.symm hx
        · exact h1
      simp only [updateFirst, if_neg hx]
      exact List.mem_cons_of_mem _ (ih hxs)

/-- If no list element equals the updated record, updating then erasing the
updated record leaves a sublist of the original list. -/
theorem erase_updateFirst_subset {l : List HedgePosition} {t n : HedgePosition}
    (hnotin : ∀ x ∈ l, x ≠ n) :
    ∀ q ∈ (updateFirst l t n).erase n, q ∈ l := by
  induction l with
  | nil => intro q hq; simp [updateFirst] at hq
  | cons x xs ih =>
    intro q hq
    by_cases hx : x = t
    · simp only [updateFirst, if_pos hx, List.erase_cons_head] at hq
      exact List.mem_cons_of_mem _ hq
    · have hxn : x ≠ n := hnotin x (List.mem_cons_self x xs)
      simp only [updateFirst, if_neg hx] at hq
      rw [List.erase_cons_tail] at hq
      · rcases List.mem_cons.mp hq with h1 | h1
        · exact h1 ▸ List.mem_cons_self x xs
        · exact List.mem_cons_of_mem _
            (ih (fun y hy => hnotin y (List.mem_cons_of_mem _ hy)) q h1)
      · simpa using hxn

/-- A successfully built position leaves the open path with status open. -/
theorem open_result_status {ctx : OpenContext} {longRes shortRes : OrderResult}
    {p : HedgePosition} {comps : List CompOrder}
    (h : executeHedgeOpenOrders ctx longRes shortRes = (some p, comps)) :
    p.status = .opened := by
  cases longRes with
  | exn =>
    cases shortRes <;> simp [executeHedgeOpenOrders] at h
  | ok lo =>
    cases shortRes with
    | exn => simp [executeHedgeOpenOrders] at h
    | ok so =>
      simp only [executeHedgeOpenOrders] at h
      rcases hl : pyOr (pyOr lo.average lo.price) ctx.longRef with _ | pl <;>
        rcases hs : pyOr (pyOr so.average so.price) ctx.shortRef with _ | ps <;>
          rw [hl, hs] at h <;> simp at h
      rw [← h.1]

/-! Claim theorems. -/

/-- Claim C2: during a hedge open, when exactly one leg submission raises and
the other succeeds, exactly one compensating market order is submitted, on the
opposite side of the successful leg with the same size, and no HedgePosition
is returned; when both legs raise, no position is returned and no compensating
order is submitted.  A None result leaves the ledger untouched. -/
theorem hedge_open_partial_failure_compensation (ctx : OpenContext) (o : Order)
    (s : EngineState) (requestedSize : ℚ) :
    executeHedgeOpenOrders ctx .exn (.ok o)
      = (none, [⟨ctx.shortExchange, .buy, ctx.size⟩])
    ∧ executeHedgeOpenOrders ctx (.ok o) .exn
      = (none, [⟨ctx.longExchange, .sell, ctx.size⟩])
    ∧ executeHedgeOpenOrders ctx .exn .exn = (none, [])
    ∧ recordOpenResult s requestedSize none = s :=
  ⟨rfl, rfl, rfl, rfl⟩

/-- Claim C7: the per-position close decision of the manager scan never queues
a position younger than the minimum lifetime, always queues one at or beyond
the maximum lifetime, and in between queues exactly when the uniform draw lies
below the linearly growing probability, which stays below the 30 percent
cap. -/
theorem position_manager_queueing (minLifetime maxLifetime lifetime draw : ℚ)
    (h : minLifetime < maxLifetime) :
    (lifetime < minLifetime →
      shouldClosePosition minLifetime maxLifetime lifetime draw = false)
    ∧ (maxLifetime ≤ lifetime →
      shouldClosePosition minLifetime maxLifetime lifetime draw = true)
    ∧ (minLifetime ≤ lifetime → lifetime < maxLifetime →
      (shouldClosePosition minLifetime maxLifetime lifetime draw = true ↔
        draw < (lifetime - minLifetime) / (maxLifetime - minLifetime) * (3/10))
      ∧ (lifetime - minLifetime) / (maxLifetime - minLifetime) * (3/10) ≤ 3/10) := by
  refine ⟨?_, ?_, ?_⟩
  · intro hlt
    have h1 : ¬ lifetime ≥ maxLifetime := by linarith
    have h2 : ¬ lifetime ≥ minLifetime := by linarith
    simp [shouldClosePosition, h1, h2]
  · intro hge
    simp [shouldClosePosition, hge]
  · intro hge hlt
    have h1 : ¬ lifetime ≥ maxLifetime := by linarith
    constructor
    · simp [shouldClosePosition, h1, hge]
    · have hden : 0 < maxLifetime - minLifetime := by linarith
      have hfac : (lifetime - minLifetime) / (maxLifetime - minLifetime) ≤ 1 := by
        rw [div_le_one hden]; linarith
      nlinarith

/-- Witness for C7 at the spec scenario: lifetime config 300 and 7200 seconds,
age 299 is never queued, age 7201 is always queued. -/
theorem position_manager_queueing_witness :
    shouldClosePosition 300 7200 299 (1/2) = false
    ∧ shouldClosePosition 300 7200 7201 0 = true :=
  ⟨(position_manager_queueing 300 7200 299 (1/2) (by norm_num)).1 (by norm_num),
   (position_manager_queueing 300 7200 7201 0 (by norm_num)).2.1 (by norm_num)⟩

/-- Counterexample to claim C5: with minSize = maxSize = 1 (a legal
configuration with 0 < minSize and minSize less or equal maxSize), the
lognormal branch clips the sample to 1, but the jitter draw 1.05 from the
legal jitter interval then lifts the returned size to 1.05, strictly above
maxSize: the sizer output is not always within the configured bounds. -/
theorem sizer_bounds_counterexample :
    (0:ℚ) < 1 ∧ (1:ℚ) ≤ 1 ∧ ((19:ℚ)/20) ≤ 21/20 ∧ ((21:ℚ)/20) ≤ 21/20
    ∧ ¬ generateRandomSize 1 1 .lognormal 1 (21/20) ≤ 1 := by
  norm_num [generateRandomSize, round6, round_eq]

/-- Claim C5 amended: the jitter multiplies after the clipping step, so the
returned size lies within the jitter-widened rounded bounds: between
round6 of 0.95 times minSize and round6 of 1.05 times maxSize, for both
distribution kinds (the loguniform sample itself lies within the configured
bounds). -/
theorem sizer_bounds_amended (minSize maxSize sample noise : ℚ)
    (dist : SizeDistribution)
    (hmin : 0 < minSize) (hle : minSize ≤ maxSize)
    (hn1 : 19/20 ≤ noise) (hn2 : noise ≤ 21/20)
    (hlu : dist = .loguniform → minSize ≤ sample ∧ sample ≤ maxSize) :
    round6 (minSize * (19/20)) ≤ generateRandomSize minSize maxSize dist sample noise
    ∧ generateRandomSize minSize maxSize dist sample noise ≤ round6 (maxSize * (21/20)) := by
  have hnpos : (0:ℚ) ≤ noise := by linarith
  cases dist with
  | lognormal =>
    have h1 : minSize ≤ max minSize (min maxSize sample) := le_max_left _ _
    have h2 : max minSize (min maxSize sample) ≤ maxSize := max_le hle (min_le_left _ _)
    simp only [generateRandomSize]
    constructor <;> apply round6_mono <;>
      nlinarith [mul_nonneg hnpos (sub_nonneg.mpr h1),
        mul_nonneg hnpos (sub_nonneg.mpr h2)]
  | loguniform =>
    obtain ⟨h1, h2⟩ := hlu rfl
    simp only [generateRandomSize]
    constructor <;> apply round6_mono <;>
      nlinarith [mul_nonneg hnpos (sub_nonneg.mpr h1),
        mul_nonneg hnpos (sub_nonneg.mpr h2)]

/-- Witness for C5 amended at minSize 1, maxSize 2, loguniform sample 2 and
jitter 1.05. -/
theorem sizer_bounds_amended_witness :
    round6 (1 * (19/20)) ≤ generateRandomSize 1 2 .loguniform 2 (21/20)
    ∧ generateRandomSize 1 2 .loguniform 2 (21/20) ≤ round6 (2 * (21/20)) :=
  sizer_bounds_amended 1 2 2 (21/20) .loguniform (by norm_num) (by norm_num)
    (by norm_num) (by norm_num) (fun _ => ⟨by norm_num, by norm_num⟩)

/-- Claim C8: acquiring the single-instance lock when the lock file records a
pid: a live recorded pid makes the acquisition fail with the already-running
signal and leaves the file untouched; a dead recorded pid is reclaimed and the
acquisition succeeds, writing the caller pid into the file. -/
theorem acquire_lock_live_and_stale (content : String) (alive : ℕ → Bool)
    (myPid pid : ℕ) (hparse : parseNat? (pyStrip content) = some pid) :
    (alive pid = true →
      acquireLock (some content) alive myPid = (.alreadyRunning, some content))
    ∧ (alive pid = false →
      acquireLock (some content) alive myPid = (.acquired, some (toString myPid))) := by
  have hne : ¬ pyStrip content = "" := by
    intro h
    rw [h] at hparse
    rw [show parseNat? "" = none from rfl] at hparse
    exact Option.noConfusion hparse
  constructor
  · intro halive
    simp [acquireLock, hne, hparse, halive]
  · intro hdead
    simp [acquireLock, hne, hparse, hdead]

/-- Witness for C8 with lock content 123: a live holder rejects the caller,
a dead holder is reclaimed and pid 7 is written. -/
theorem acquire_lock_live_and_stale_witness :
    acquireLock (some "123") (fun _ => true) 7 = (.alreadyRunning, some "123")
    ∧ acquireLock (some "123") (fun _ => false) 7 = (.acquired, some "7") :=
  ⟨(acquire_lock_live_and_stale "123" (fun _ => true) 7 123 (by decide)).1 rfl,
   (acquire_lock_live_and_stale "123" (fun _ => false) 7 123 (by decide)).2 rfl⟩

/-- Claim C4: when both close orders complete and both close prices resolve,
the position recorded in the history carries realized PnL
(closeLong - openLong) * size + (openShort - closeShort) * size; when either
close submission raised, the recorded PnL is 0. -/
theorem close_pnl_formula (s : EngineState) (pos : HedgePosition)
    (longRef shortRef : Option ℚ) (ol os : Order) (now : ℚ) :
    (∀ pl ps, resolveClosePrice ol longRef = some pl →
      resolveClosePrice os shortRef = some ps →
      (executeHedgeClose s pos (.orders longRef shortRef (.ok ol) (.ok os)) now).positionHistory
        = s.positionHistory ++ [{ pos with
            status := .closed
            closedAt := some now
            pnl := (pl - pos.longPrice) * pos.size
              + (pos.shortPrice - ps) * pos.size }])
    ∧ (∀ closeLong closeShort : OrderResult,
      closeLong = .exn ∨ closeShort = .exn →
      (executeHedgeClose s pos (.orders longRef shortRef closeLong closeShort) now).positionHistory
        = s.positionHistory ++ [{ pos with
            status := .closed
            closedAt := some now
            pnl := 0 }]) := by
  constructor
  · intro pl ps hpl hps
    simp [executeHedgeClose, closePnl, hpl, hps]
  · intro closeLong closeShort hexn
    rcases hexn with h | h
    · subst h
      cases closeShort <;> simp [executeHedgeClose, closePnl]
    · subst h
      cases closeLong <;> simp [executeHedgeClose, closePnl]

/-- Witness for C4: closing at long close price 102 and short close price 100
records PnL (102 - 100) * 2 + (101 - 100) * 2. -/
theorem close_pnl_formula_witness :
    (executeHedgeClose {} witClosePos
        (.orders (some 99) (some 102) (.ok { average := some 102 })
          (.ok { average := some 100 })) 7).positionHistory
      = ({} : EngineState).positionHistory ++ [{ witClosePos with
          status := .closed
          closedAt := some 7
          pnl := ((102:ℚ) - witClosePos.longPrice) * witClosePos.size
            + (witClosePos.shortPrice - 100) * witClosePos.size }] :=
  (close_pnl_formula {} witClosePos (some 99) (some 102)
    { average := some 102 } { average := some 100 } 7).1 102 100
    (by norm_num [resolveClosePrice, pyOr]) (by norm_num [resolveClosePrice, pyOr])

/-- Claim C3: on order books exposing a best bid and a best ask on both venues
(with nonzero midpoints, where Python does not raise ZeroDivisionError), the
direction selector returns the scenario with net cost less or equal to the
other scenario, makes that scenario buyer the long venue and seller the
short venue with the matching prices, and accepts exactly when the absolute
chosen cost over the midpoint of the chosen prices, times 100, is at most the
configured tolerance. -/
theorem direction_selector_cheaper_scenario (ex1 ex2 : String) (ob1 ob2 : Orderbook)
    (tol : ℚ) (r : SpreadResult)
    (h1 : ob1.asks.isEmpty = false) (h2 : ob1.bids.isEmpty = false)
    (h3 : ob2.asks.isEmpty = false) (h4 : ob2.bids.isEmpty = false)
    (hm1 : bestAsk ob1 + bestBid ob2 ≠ 0) (hm2 : bestAsk ob2 + bestBid ob1 ≠ 0)
    (hr : checkSpreadAndDetermineDirection ex1 ex2 ob1 ob2 tol = r) :
    (r.spread ≤ bestAsk ob1 - bestBid ob2 ∧ r.spread ≤ bestAsk ob2 - bestBid ob1)
    ∧ ((r.spread = bestAsk ob1 - bestBid ob2 ∧ r.longExchange = ex1
        ∧ r.shortExchange = ex2 ∧ r.longPrice = bestAsk ob1 ∧ r.shortPrice = bestBid ob2)
      ∨ (r.spread = bestAsk ob2 - bestBid ob1 ∧ r.longExchange = ex2
        ∧ r.shortExchange = ex1 ∧ r.longPrice = bestAsk ob2 ∧ r.shortPrice = bestBid ob1))
    ∧ (r.acceptable = true ↔
        |r.spread| / ((r.longPrice + r.shortPrice) / 2) * 100 ≤ tol) := by
  subst hr
  unfold checkSpreadAndDetermineDirection
  rw [if_neg (by simp [h1, h2, h3, h4])]
  rw [if_neg (by simp [hm1, hm2])]
  by_cases hc : bestAsk ob1 - bestBid ob2 ≤ bestAsk ob2 - bestBid ob1
  · rw [if_pos hc]
    refine ⟨⟨le_refl _, hc⟩, Or.inl ⟨rfl, rfl, rfl, rfl, rfl⟩, ?_⟩
    simp
  · rw [if_neg hc]
    refine ⟨⟨le_of_lt (lt_of_not_le hc), le_refl _⟩,
      Or.inr ⟨rfl, rfl, rfl, rfl, rfl⟩, ?_⟩
    simp

/-- Witness for C3 at the spec example: scenario 2 (buy venue B at 98, sell
venue A at 99, net cost -1) is chosen over scenario 1 (cost 3). -/
theorem direction_selector_cheaper_scenario_witness :
    (witSpreadResult.spread ≤ bestAsk witObA - bestBid witObB
      ∧ witSpreadResult.spread ≤ bestAsk witObB - bestBid witObA)
    ∧ ((witSpreadResult.spread = bestAsk witObA - bestBid witObB
        ∧ witSpreadResult.longExchange = "venueA"
        ∧ witSpreadResult.shortExchange = "venueB"
        ∧ witSpreadResult.longPrice = bestAsk witObA
        ∧ witSpreadResult.shortPrice = bestBid witObB)
      ∨ (witSpreadResult.spread = bestAsk witObB - bestBid witObA
        ∧ witSpreadResult.longExchange = "venueB"
        ∧ witSpreadResult.shortExchange = "venueA"
        ∧ witSpreadResult.longPrice = bestAsk witObB
        ∧ witSpreadResult.shortPrice = bestBid witObA))
    ∧ (witSpreadResult.acceptable = true ↔
        |witSpreadResult.spread|
          / ((witSpreadResult.longPrice + witSpreadResult.shortPrice) / 2) * 100 ≤ 5) :=
  direction_selector_cheaper_scenario "venueA" "venueB" witObA witObB 5
    witSpreadResult rfl rfl rfl rfl
    (by norm_num [bestAsk, bestBid, witObA, witObB])
    (by norm_num [bestAsk, bestBid, witObA, witObB]) rfl

/-- Claim C6: with positive reference prices, configured positive minimum
notional and minimum quantity on both legs, and precision snapping that lowers
a value by at most one step, the single returned amount satisfies the
constraints of both venues simultaneously, within the accumulated rounding
tolerance of the snapping steps: the notional of each leg stays above 1.1
times its minimum cost, the amount stays above 1.1 times each minimum
quantity, and the returned amount is no smaller than either individually
adjusted size, within the same tolerance. -/
theorem adjusted_size_meets_both_venues (size cL aL cS aS pL pS stepL stepS : ℚ)
    (snapL snapS : ℚ → ℚ) (r : ℚ)
    (hpL : 0 < pL) (hpS : 0 < pS) (hcL : 0 < cL) (hcS : 0 < cS)
    (haL : 0 < aL) (haS : 0 < aS)
    (hsL : SnapApprox snapL stepL) (hsS : SnapApprox snapS stepS)
    (hr : validateAndAdjustSize size { minCost := some cL, minAmount := some aL }
      (some pL) snapL { minCost := some cS, minAmount := some aS } (some pS) snapS = r) :
    (cL * (11/10) - (stepL + stepS) * pL ≤ r * pL)
    ∧ (cS * (11/10) - stepS * pS ≤ r * pS)
    ∧ (aL * (11/10) - (stepL + stepS) ≤ r)
    ∧ (aS * (11/10) - stepS ≤ r)
    ∧ (adjustLegSize size { minCost := some cL, minAmount := some aL } (some pL) snapL
        - stepS ≤ r)
    ∧ (adjustLegSize size { minCost := some cS, minAmount := some aS } (some pS) snapS
        - (stepL + stepS) ≤ r) := by
  have hcL0 : cL ≠ 0 := ne_of_gt hcL
  have hcS0 : cS ≠ 0 := ne_of_gt hcS
  have haL0 : aL ≠ 0 := ne_of_gt haL
  have haS0 : aS ≠ 0 := ne_of_gt haS
  have hpL0 : pL ≠ 0 := ne_of_gt hpL
  have hpS0 : pS ≠ 0 := ne_of_gt hpS
  have hlegL : adjustLegSize size { minCost := some cL, minAmount := some aL }
      (some pL) snapL
      = snapL (max (max size (cL / pL * (11/10))) (aL * (11/10))) := by
    simp [adjustLegSize, hcL0, hpL0, haL0]
  have hlegS : ∀ x : ℚ, adjustLegSize x { minCost := some cS, minAmount := some aS }
      (some pS) snapS
      = snapS (max (max x (cS / pS * (11/10))) (aS * (11/10))) := by
    intro x
    simp [adjustLegSize, hcS0, hpS0, haS0]
  set A := max (max size (cL / pL * (11/10))) (aL * (11/10)) with hA
  set B := max (max (snapL A) (cS / pS * (11/10))) (aS * (11/10)) with hB
  have hrval : r = snapS B := by
    rw [← hr, validateAndAdjustSize, hlegL, hlegS]
  have hAcost : cL / pL * (11/10) ≤ A :=
    le_trans (le_max_right _ _) (le_max_left _ _)
  have hAamt : aL * (11/10) ≤ A := le_max_right _ _
  have hAsize : size ≤ A := le_trans (le_max_left _ _) (le_max_left _ _)
  have hsnapA := hsL A
  have hBs : snapL A ≤ B := le_trans (le_max_left _ _) (le_max_left _ _)
  have hBcost : cS / pS * (11/10) ≤ B :=
    le_trans (le_max_right _ _) (le_max_left _ _)
  have hBamt : aS * (11/10) ≤ B := le_max_right _ _
  have hsnapB := hsS B
  have hrB : B - stepS ≤ r := by rw [hrval]; exact (hsS B).1
  have hkeyL : cL / pL * (11/10) - (stepL + stepS) ≤ r := by linarith
  have hkeyS : cS / pS * (11/10) - stepS ≤ r := by linarith
  refine ⟨?_, ?_, by linarith, by linarith, ?_, ?_⟩
  · have hmul := mul_le_mul_of_nonneg_right hkeyL (le_of_lt hpL)
    have hexp : (cL / pL * (11/10) - (stepL + stepS)) * pL
        = cL * (11/10) - (stepL + stepS) * pL := by
      field_simp
      ring
    linarith [hexp ▸ hmul]
  · have hmul := mul_le_mul_of_nonneg_right hkeyS (le_of_lt hpS)
    have hexp : (cS / pS * (11/10) - stepS) * pS
        = cS * (11/10) - stepS * pS := by
      field_simp
      ring
    linarith [hexp ▸ hmul]
  · rw [hlegL]
    linarith
  · rw [hlegS]
    have hCB : max (max size (cS / pS * (11/10))) (aS * (11/10)) ≤ B + stepL := by
      apply max_le
      · apply max_le
        · linarith
        · linarith
      · linarith
    have := (hsS (max (max size (cS / pS * (11/10))) (aS * (11/10)))).2
    linarith

/-- Witness for C6 with identity snapping (step 0), size 1, prices 100,
minimum costs 10 and 20, minimum amounts 2 and 3. -/
theorem adjusted_size_meets_both_venues_witness :
    ((10:ℚ) * (11/10) - ((0:ℚ) + 0) * 100 ≤ validateAndAdjustSize 1
        { minCost := some 10, minAmount := some 2 } (some 100) id
        { minCost := some 20, minAmount := some 3 } (some 100) id * 100)
    ∧ ((20:ℚ) * (11/10) - (0:ℚ) * 100 ≤ validateAndAdjustSize 1
        { minCost := some 10, minAmount := some 2 } (some 100) id
        { minCost := some 20, minAmount := some 3 } (some 100) id * 100)
    ∧ ((2:ℚ) * (11/10) - ((0:ℚ) + 0) ≤ validateAndAdjustSize 1
        { minCost := some 10, minAmount := some 2 } (some 100) id
        { minCost := some 20, minAmount := some 3 } (some 100) id)
    ∧ ((3:ℚ) * (11/10) - (0:ℚ) ≤ validateAndAdjustSize 1
        { minCost := some 10, minAmount := some 2 } (some 100) id
        { minCost := some 20, minAmount := some 3 } (some 100) id)
    ∧ (adjustLegSize 1 { minCost := some 10, minAmount := some 2 } (some 100) id
        - (0:ℚ) ≤ validateAndAdjustSize 1
        { minCost := some 10, minAmount := some 2 } (some 100) id
        { minCost := some 20, minAmount := some 3 } (some 100) id)
    ∧ (adjustLegSize 1 { minCost := some 20, minAmount := some 3 } (some 100) id
        - ((0:ℚ) + 0) ≤ validateAndAdjustSize 1
        { minCost := some 10, minAmount := some 2 } (some 100) id
        { minCost := some 20, minAmount := some 3 } (some 100) id) :=
  adjusted_size_meets_both_venues 1 10 2 20 3 100 100 0 0 id id
    (validateAndAdjustSize 1 { minCost := some 10, minAmount := some 2 } (some 100) id
      { minCost := some 20, minAmount := some 3 } (some 100) id)
    (by norm_num) (by norm_num) (by norm_num) (by norm_num) (by norm_num) (by norm_num)
    (fun x => ⟨by norm_num, le_refl x⟩) (fun x => ⟨by norm_num, le_refl x⟩) rfl

/-- Claim C1 amended: along every reachable engine state, the active set never
contains a closed position; but a close attempt that fails (here: symbol
mapping failure) leaves the position in the active set marked failed instead
of removing it. -/
theorem active_set_never_closed_amended :
    (∀ s, Reachable s → ∀ p ∈ s.activePositions, p.status ≠ PositionStatus.closed)
    ∧ (∀ s pos now, pos ∈ s.activePositions →
        { pos with status := PositionStatus.failed }
          ∈ (executeHedgeClose s pos .mappingFail now).activePositions) := by
  constructor
  · intro s hs
    induction hs with
    | init s hactive hhist =>
      intro p hp
      rw [hactive] at hp
      simp at hp
    | step s t hs hstep ih =>
      intro p hp
      cases hstep with
      | openAttempt ctx longRes shortRes requestedSize =>
        rcases hres : executeHedgeOpenOrders ctx longRes shortRes with ⟨opt, comps⟩
        rw [hres] at hp
        cases opt with
        | none => exact ih p (by simpa [recordOpenResult] using hp)
        | some q =>
          simp only [recordOpenResult, List.mem_append] at hp
          rcases hp with hp | hp
          · exact ih p hp
          · have hq : p = q := by simpa using hp
            rw [hq, open_result_status hres]
            simp
      | close pos env now hmem =>
        cases env with
        | mappingFail =>
          rcases mem_updateFirst (by simpa [executeHedgeClose] using hp) with h | h
          · exact ih p h
          · rw [h]; simp
        | priceFetchFail =>
          rcases mem_updateFirst (by simpa [executeHedgeClose] using hp) with h | h
          · exact ih p h
          · rw [h]; simp
        | unexpectedError =>
          rcases mem_updateFirst (by simpa [executeHedgeClose] using hp) with h | h
          · exact ih p h
          · rw [h]; simp
        | orders longRef shortRef closeLong closeShort =>
          have hnotin : ∀ x ∈ s.activePositions,
              x ≠ { pos with
                status := PositionStatus.closed
                closedAt := some now
                pnl := closePnl pos longRef shortRef closeLong closeShort } := by
            intro x hx heq
            have := ih x hx
            rw [heq] at this
            exact this rfl
          exact ih p (erase_updateFirst_subset hnotin p
            (by simpa [executeHedgeClose] using hp))
      | dailyReset today =>
        revert hp
        unfold checkDailyReset
        split <;> intro hp <;> exact ih p hp
  · intro s pos now hmem
    exact updateFirst_mem_updated _ hmem

/-- Witness for C1 amended: a one-position active set where the close attempt
hits a mapping failure keeps the failed position in the active set. -/
theorem active_set_never_closed_amended_witness :
    { witClosePos with status := PositionStatus.failed }
      ∈ (executeHedgeClose { activePositions := [witClosePos] } witClosePos
          .mappingFail 9).activePositions :=
  active_set_never_closed_amended.2 { activePositions := [witClosePos] }
    witClosePos 9 (List.mem_singleton.mpr rfl)

/-- Counterexample to claim C1 as stated: a reachable state (open succeeds,
then the close attempt fails on symbol mapping) whose active set contains a
position with status failed - the failing close does not remove the position
from the active set. -/
theorem active_set_contains_failed_counterexample :
    Reachable cexState2
    ∧ { cexOpenPos with status := PositionStatus.failed } ∈ cexState2.activePositions
    ∧ ({ cexOpenPos with status := PositionStatus.failed } : HedgePosition).status
        = PositionStatus.failed := by
  have hopen : executeHedgeOpenOrders cexCtx (.ok cexLongOrder) (.ok cexShortOrder)
      = (some cexOpenPos, []) := by
    norm_num [executeHedgeOpenOrders, cexCtx, cexLongOrder, cexShortOrder, pyOr,
      cexOpenPos]
  have hactive1 : cexState1.activePositions = [cexOpenPos] := by
    simp [cexState1, hopen, recordOpenResult]
  have hmem : cexOpenPos ∈ cexState1.activePositions := by
    rw [hactive1]
    exact List.mem_singleton.mpr rfl
  refine ⟨?_, ?_, rfl⟩
  · exact Reachable.step cexState1 cexState2
      (Reachable.step {} cexState1 (Reachable.init {} rfl rfl)
        (EngineStep.openAttempt {} cexCtx (.ok cexLongOrder) (.ok cexShortOrder) 1))
      (EngineStep.close cexState1 cexOpenPos .mappingFail 500 hmem)
  · exact updateFirst_mem_updated _ hmem

/-- Counterexample to claim C9 as stated: on day 1 (the calendar date has
advanced past the last reset date) the statistics accessor still reports the
previous-day volume 5, while an access that does run the reset check first
reports 0: get_statistics does not call _check_daily_reset. -/
theorem statistics_skip_reset_counterexample :
    ((1:ℤ) > statState.lastResetDate)
    ∧ (getStatistics statState 0).dailyVolume = 5
    ∧ (getStatistics (checkDailyReset statState 1) 0).dailyVolume = 0 := by
  refine ⟨by norm_num [statState], ?_, ?_⟩
  · norm_num [getStatistics, statState, round4, round_eq]
  · norm_num [getStatistics, checkDailyReset, statState, round4, round_eq]

/-- Claim C9 amended: the farming-loop cap check resets lazily (its gate reads
a zeroed counter once the date advances), but the statistics accessor reads
the daily counter as is, without the reset check. -/
theorem daily_reset_lazy_on_loop_only (s : EngineState) (today : ℤ) (now : ℚ)
    (hadv : today > s.lastResetDate) :
    (checkDailyReset s today).dailyVolume = 0
    ∧ (checkDailyReset s today).lastResetDate = today
    ∧ (farmingDailyGate s today).1.dailyVolume = 0
    ∧ (getStatistics s now).dailyVolume = round4 s.dailyVolume := by
  refine ⟨?_, ?_, ?_, ?_⟩ <;>
    simp [checkDailyReset, farmingDailyGate, hadv, getStatistics]

/-- Witness for C9 amended at the concrete day-rollover state. -/
theorem daily_reset_lazy_on_loop_only_witness :
    (checkDailyReset statState 1).dailyVolume = 0
    ∧ (checkDailyReset statState 1).lastResetDate = 1
    ∧ (farmingDailyGate statState 1).1.dailyVolume = 0
    ∧ (getStatistics statState 0).dailyVolume = round4 statState.dailyVolume :=
  daily_reset_lazy_on_loop_only statState 1 0 (by norm_num [statState])

/-- Counterexample to claim C10 as stated: the accumulated volume exceeds the
cap, yet the reported remaining budget is 0, not negative, and differs from
the exact difference, because get_statistics rounds the difference to four
decimal places. -/
theorem remaining_budget_counterexample :
    overState.dailyMaxVolume < overState.dailyVolume
    ∧ (getStatistics overState 0).dailyVolumeRemaining = 0
    ∧ (getStatistics overState 0).dailyVolumeRemaining
        ≠ overState.dailyMaxVolume - overState.dailyVolume := by
  refine ⟨by norm_num [overState], ?_, ?_⟩
  · norm_num [getStatistics, overState, round4, round_eq]
  · norm_num [getStatistics, overState, round4, round_eq]

/-- Claim C10 amended: the statistics accessor reports the remaining daily
budget as the difference of the cap and the accumulated volume rounded to four
decimal places, with no clamping at zero: it is negative whenever the
accumulated volume exceeds the cap by more than half the rounding step; the
overshoot is reachable because the farming iteration checks the cap before
opening and adds the requested size to the counter afterwards. -/
theorem remaining_budget_unclamped (s : EngineState) (now : ℚ) :
    (getStatistics s now).dailyVolumeRemaining
      = round4 (s.dailyMaxVolume - s.dailyVolume)
    ∧ (s.dailyMaxVolume + 1/20000 < s.dailyVolume →
        (getStatistics s now).dailyVolumeRemaining < 0)
    ∧ (∀ requestedSize : ℚ, ∀ pos : HedgePosition,
        (recordOpenResult s requestedSize (some pos)).dailyVolume
          = s.dailyVolume + requestedSize)
    ∧ (∀ (today : ℤ) (requestedSize : ℚ) (ctx : OpenContext)
        (longRes shortRes : OrderResult) (pos : HedgePosition)
        (comps : List CompOrder),
        ¬ (checkDailyReset s today).dailyVolume ≥ (checkDailyReset s today).dailyMaxVolume →
        ¬ (checkDailyReset s today).activePositions.length
            ≥ (checkDailyReset s today).maxConcurrentPositions →
        executeHedgeOpenOrders ctx longRes shortRes = (some pos, comps) →
        (farmingIteration s today requestedSize ctx longRes shortRes).dailyVolume
          = (checkDailyReset s today).dailyVolume + requestedSize) := by
  refine ⟨by simp [getStatistics], ?_, ?_, ?_⟩
  · intro hover
    have heq : (getStatistics s now).dailyVolumeRemaining
        = round4 (s.dailyMaxVolume - s.dailyVolume) := by simp [getStatistics]
    rw [heq, round4, round_eq]
    have hnum : ((s.dailyMaxVolume - s.dailyVolume) * 10000 + 1/2 : ℚ) < 0 := by
      linarith
    have hfl : ⌊(s.dailyMaxVolume - s.dailyVolume) * 10000 + 1/2⌋ < 0 := by
      rw [Int.floor_lt]
      exact_mod_cast hnum
    apply div_neg_of_neg_of_pos
    · exact_mod_cast hfl
    · norm_num
  · intro requestedSize pos
    simp [recordOpenResult]
  · intro today requestedSize ctx longRes shortRes pos comps hgate hconc hopen
    rw [farmingIteration, if_neg hgate, if_neg hconc, hopen]
    simp [recordOpenResult]

/-- Witness for C10 amended: with the cap exceeded by a full unit the reported
remaining budget is negative. -/
theorem remaining_budget_unclamped_witness :
    (getStatistics overStateBig 0).dailyVolumeRemaining < 0 :=
  (remaining_budget_unclamped overStateBig 0).2.1 (by norm_num [overStateBig])
